import Mathlib

/-!
Shallow embedding of `count_changes.py`: a script that runs
`git log --shortstat --oneline`, splits the captured stdout into lines,
scans each line for `(\d+)\s+insertions?\(\+\)` and `(\d+)\s+deletions?\(-\)`
(after a substring pre-check), accumulates two totals, and prints a
three-line summary.

Text is modelled as `List Char`.  Character classes follow the ASCII
behaviour of Python's `\d` and `\s` (git's shortstat output is ASCII).
Counters are `Int`, mirroring Python's signed integers.
-/

namespace CountChanges

/-- ASCII whitespace recognised by Python's `\s`. -/
def isPySpace (c : Char) : Bool :=
  c = ' ' || c = '\t' || c = '\n' || c = '\r' || c = '\x0b' || c = '\x0c'

/-- Value of a decimal digit string, as Python's `int` computes it on the
capture group of `(\d+)`. -/
def digitsToNat (ds : List Char) : Nat :=
  ds.foldl (fun acc c => 10 * acc + (c.toNat - '0'.toNat)) 0

/-- Match the pattern `(\d+)\s+<word>s?<suffix>` anchored at the start of
`cs`, returning the value of the capture group.  This is the behaviour of
Python's regex at one starting position: `\d+` takes the maximal digit run
(backtracking to a shorter run cannot help, because a digit is not
whitespace), `\s+` takes the maximal whitespace run (likewise), then the
literal word, a greedy optional `s`, and the literal suffix. -/
def matchStatAt (word suffix cs : List Char) : Option Nat :=
  let ds := cs.takeWhile Char.isDigit
  let r1 := cs.dropWhile Char.isDigit
  if ds.isEmpty then none
  else
    let sp := r1.takeWhile isPySpace
    let r2 := r1.dropWhile isPySpace
    if sp.isEmpty then none
    else if word.isPrefixOf r2 then
      let r3 := r2.drop word.length
      match r3 with
      | 's' :: r4 =>
        if suffix.isPrefixOf r4 then some (digitsToNat ds)
        else if suffix.isPrefixOf r3 then some (digitsToNat ds)
        else none
      | _ => if suffix.isPrefixOf r3 then some (digitsToNat ds) else none
    else none

/-- `re.search`: try each starting position from the left, returning the
first position where the pattern matches (leftmost match). -/
def searchStat (word suffix : List Char) : List Char → Option Nat
  | [] => none
  | c :: cs =>
    match matchStatAt word suffix (c :: cs) with
    | some n => some n
    | none => searchStat word suffix cs

/-- Python's substring containment `needle in hay`. -/
def containsSub (needle : List Char) : List Char → Bool
  | [] => needle.isEmpty
  | c :: cs => needle.isPrefixOf (c :: cs) || containsSub needle cs

/-- The word searched for insertions. -/
def insWord : List Char := "insertion".data

/-- The suffix of the insertions pattern. -/
def plusSuffix : List Char := "(+)".data

/-- The word searched for deletions. -/
def delWord : List Char := "deletion".data

/-- The suffix of the deletions pattern. -/
def minusSuffix : List Char := "(-)".data

/-- The insertions branch of the loop body:
`if 'insertions' in line or 'insertion' in line:` then
`re.search(r'(\d+)\s+insertions?\(\+\)', line)`. -/
def extractInsertions (line : List Char) : Option Nat :=
  if containsSub "insertions".data line || containsSub insWord line then
    searchStat insWord plusSuffix line
  else none

/-- The deletions branch of the loop body:
`if 'deletions' in line or 'deletion' in line:` then
`re.search(r'(\d+)\s+deletions?\(-\)', line)`. -/
def extractDeletions (line : List Char) : Option Nat :=
  if containsSub "deletions".data line || containsSub delWord line then
    searchStat delWord minusSuffix line
  else none

/-- One iteration of the `for line in lines` loop: the insertions block,
then the deletions block, each adding its matched count when present. -/
def stepLine (t : Int × Int) (line : List Char) : Int × Int :=
  let t1 :=
    match extractInsertions line with
    | some n => (t.1 + (n : Int), t.2)
    | none => t
  match extractDeletions line with
  | some n => (t1.1, t1.2 + (n : Int))
  | none => t1

/-- The whole loop: counters start at `(0, 0)` and every line is scanned
in order. -/
def aggregate (lines : List (List Char)) : Int × Int :=
  lines.foldl stepLine (0, 0)

/-- Amount a single line adds to `total_insertions`. -/
def insContrib (line : List Char) : Int :=
  match extractInsertions line with
  | some n => (n : Int)
  | none => 0

/-- Amount a single line adds to `total_deletions`. -/
def delContrib (line : List Char) : Int :=
  match extractDeletions line with
  | some n => (n : Int)
  | none => 0

/-- Python's `s.split('\n')`: `""` yields `[""]`, and every newline
separates two (possibly empty) pieces. -/
def splitNl : List Char → List (List Char)
  | [] => [[]]
  | c :: cs =>
    if c = '\n' then [] :: splitNl cs
    else
      match splitNl cs with
      | [] => [[c]]
      | l :: ls => (c :: l) :: ls

/-- Outcome of `subprocess.run(['git', ...], capture_output=True, text=True)`
when the child process could be spawned: its exit status and captured
streams.  Note the script reads only `stdout`; `returncode` and `stderr`
are never consulted (there is no `check=True`). -/
structure RunResult where
  exitCode : Int
  stdout : List Char
  stderr : List Char

/-- Ways spawning the child process itself can fail, raising a Python
exception out of `subprocess.run` (git binary missing, or present but not
executable). -/
inductive SpawnError where
  | fileNotFound
  | permissionDenied
deriving DecidableEq

/-- The three `print` statements, in program order. -/
def reportLines (t : Int × Int) : List String :=
  ["Total insertions: " ++ toString t.1,
   "Total deletions: " ++ toString t.2,
   "Net change: " ++ toString (t.1 - t.2)]

/-- The whole script: if `subprocess.run` raises, the exception propagates
and nothing is printed; otherwise the captured stdout is split, aggregated,
and the three summary lines are printed.  The exit code of the child is
ignored, exactly as in the source (no `check=True`). -/
def countChanges (spawnResult : Except SpawnError RunResult) :
    Except SpawnError (List String) :=
  match spawnResult with
  | .error e => .error e
  | .ok r => .ok (reportLines (aggregate (splitNl r.stdout)))

/-- The shortstat line of Scenario A. -/
def scenALine : List Char := " 1 file changed, 5 insertions(+), 2 deletions(-)".data

/-- A commit-header line with no statistics. -/
def headerLine : List Char := "abc123 msg".data

/-- A shortstat line with insertions only. -/
def insOnlyLine : List Char := " 1 file changed, 1 insertion(+)".data

/-- A shortstat line with deletions only. -/
def delOnlyLine : List Char := " 3 files changed, 10 deletions(-)".data

/-- A line on which the insertions pattern occurs twice. -/
def doubleInsLine : List Char := "2 insertions(+) then 7 insertions(+)".data

/-- A line on which the deletions pattern occurs twice. -/
def doubleDelLine : List Char := "4 deletions(-), 9 deletions(-)".data

/-- A line containing both marker substrings but matching neither pattern. -/
def malformedLine : List Char := "insertion and deletion with no counts".data

/-- Captured stdout of a run in a repository matching Scenario C. -/
def scenCStdout : List Char := "abc123 msg\n 3 files changed, 10 deletions(-)".data

/-! ### Helper lemmas -/

theorem stepLine_eq (t : Int × Int) (l : List Char) :
    stepLine t l = (t.1 + insContrib l, t.2 + delContrib l) := by
  rcases hE : extractInsertions l with _ | n <;>
    rcases hD : extractDeletions l with _ | m <;>
      simp [stepLine, insContrib, delContrib, hE, hD]

theorem foldl_stepLine (ls : List (List Char)) (t : Int × Int) :
    ls.foldl stepLine t =
      (t.1 + (ls.map insContrib).sum, t.2 + (ls.map delContrib).sum) := by
  induction ls generalizing t with
  | nil => simp
  | cons l ls ih =>
    simp [List.foldl_cons, ih, stepLine_eq, add_assoc]

theorem aggregate_eq (ls : List (List Char)) :
    aggregate ls = ((ls.map insContrib).sum, (ls.map delContrib).sum) := by
  unfold aggregate
  rw [foldl_stepLine]
  simp

theorem aggregate_single (l : List Char) :
    aggregate [l] = (insContrib l, delContrib l) := by
  simp [aggregate_eq]

theorem insContrib_nonneg (l : List Char) : 0 ≤ insContrib l := by
  unfold insContrib
  cases extractInsertions l <;> simp

theorem delContrib_nonneg (l : List Char) : 0 ≤ delContrib l := by
  unfold delContrib
  cases extractDeletions l <;> simp

theorem sum_map_nonneg (f : List Char → Int) (hf : ∀ l, 0 ≤ f l) :
    ∀ ls : List (List Char), 0 ≤ (ls.map f).sum
  | [] => le_refl 0
  | l :: ls => by
    simp only [List.map_cons, List.sum_cons]
    exact add_nonneg (hf l) (sum_map_nonneg f hf ls)

theorem prefix_contains (w l : List Char) (h : w.isPrefixOf l = true) :
    containsSub w l = true := by
  cases l with
  | nil =>
    cases w with
    | nil => rfl
    | cons a as => simp [List.isPrefixOf] at h
  | cons c cs => simp [containsSub, h]

theorem contains_dropWhile (w : List Char) (p : Char → Bool) (l : List Char)
    (h : containsSub w (l.dropWhile p) = true) : containsSub w l = true := by
  induction l with
  | nil => exact h
  | cons c cs ih =>
    by_cases hp : p c = true
    · rw [List.dropWhile_cons, if_pos hp] at h
      simp [containsSub, ih h]
    · rw [List.dropWhile_cons, if_neg hp] at h
      exact h

theorem matchStatAt_contains (w suf cs : List Char) (n : Nat)
    (h : matchStatAt w suf cs = some n) : containsSub w cs = true := by
  simp only [matchStatAt] at h
  split at h
  · exact absurd h (by simp)
  · split at h
    · exact absurd h (by simp)
    · split at h
      · rename_i hpre
        exact contains_dropWhile w Char.isDigit cs
          (contains_dropWhile w isPySpace (cs.dropWhile Char.isDigit)
            (prefix_contains w _ hpre))
      · exact absurd h (by simp)

theorem searchStat_contains (w suf cs : List Char) (n : Nat)
    (h : searchStat w suf cs = some n) : containsSub w cs = true := by
  induction cs with
  | nil => simp [searchStat] at h
  | cons c cs ih =>
    rw [searchStat] at h
    cases hm : matchStatAt w suf (c :: cs) with
    | some m => exact matchStatAt_contains w suf (c :: cs) m hm
    | none =>
      rw [hm] at h
      simp [containsSub, ih h]

theorem not_contains_searchStat (w suf cs : List Char)
    (h : containsSub w cs = false) : searchStat w suf cs = none := by
  cases hs : searchStat w suf cs with
  | none => rfl
  | some n =>
    rw [searchStat_contains w suf cs n hs] at h
    exact absurd h (by simp)

/-! ### Claim theorems -/

/-- Claim C1, counterexample: when the current working directory is not a
git repository, `subprocess.run` raises no exception (there is no
`check=True`); git exits with status 128, empty stdout and an error on
stderr, and the script — which never reads `returncode` — still prints the
full three-line summary and terminates normally, contradicting the claim
that the summary is never printed. -/
theorem c1_counterexample :
    countChanges (.ok ⟨128, [], "fatal: not a git repository".data⟩) =
      .ok ["Total insertions: 0", "Total deletions: 0", "Net change: 0"] := rfl

/-- Claim C1, amended: if spawning the external tool itself fails (binary
missing, or present but not executable) the exception propagates as a fatal
error and the summary is never printed; but if the tool starts and exits
with a non-zero status (e.g. the current directory is not a valid
repository), no error is raised and the three-line summary is still
printed from the captured stdout. -/
theorem c1_amended :
    (∀ e : SpawnError,
      countChanges (.error e) = .error e ∧
      (countChanges (.error e)).toOption = none) ∧
    (∀ r : RunResult,
      countChanges (.ok r) = .ok (reportLines (aggregate (splitNl r.stdout)))) :=
  ⟨fun _ => ⟨rfl, rfl⟩, fun _ => rfl⟩

/-- Claim C2: for the Report of Scenario A the totals are `(5, 2)`, the net
change is `3`, and the three printed lines are exactly
`Total insertions: 5`, `Total deletions: 2`, `Net change: 3`. -/
theorem c2_scenarioA :
    aggregate [headerLine, scenALine] = (5, 2) ∧
    (aggregate [headerLine, scenALine]).1 - (aggregate [headerLine, scenALine]).2 = 3 ∧
    reportLines (aggregate [headerLine, scenALine]) =
      ["Total insertions: 5", "Total deletions: 2", "Net change: 3"] :=
  ⟨rfl, rfl, rfl⟩

/-- Claim C3: on success the program writes exactly the three labeled lines
in the fixed order insertions, deletions, net change, with the net change
equal to `total_insertions - total_deletions`; it can be negative, as the
concrete Scenario C run shows. -/
theorem c3_output_contract :
    (∀ r : RunResult,
      countChanges (.ok r) =
        .ok ["Total insertions: " ++ toString (aggregate (splitNl r.stdout)).1,
             "Total deletions: " ++ toString (aggregate (splitNl r.stdout)).2,
             "Net change: " ++
               toString ((aggregate (splitNl r.stdout)).1 -
                 (aggregate (splitNl r.stdout)).2)]) ∧
    countChanges (.ok ⟨0, scenCStdout, []⟩) =
      .ok ["Total insertions: 0", "Total deletions: 10", "Net change: -10"] :=
  ⟨fun _ => rfl, rfl⟩

/-- Claim C4: aggregating a whole Report equals the componentwise sum of
aggregating each line on its own. -/
theorem c4_additivity (lines : List (List Char)) :
    aggregate lines =
      ((lines.map (fun l => (aggregate [l]).1)).sum,
       (lines.map (fun l => (aggregate [l]).2)).sum) := by
  simp [aggregate_eq, aggregate_single]

/-- Claim C5: the counters start at `(0, 0)`, are non-negative after every
prefix of the Report (i.e. at every step of the scan), and never decrease
as further lines are consumed. -/
theorem c5_counters_invariant (p q : List (List Char)) :
    aggregate [] = (0, 0) ∧
    0 ≤ (aggregate p).1 ∧ 0 ≤ (aggregate p).2 ∧
    (aggregate p).1 ≤ (aggregate (p ++ q)).1 ∧
    (aggregate p).2 ≤ (aggregate (p ++ q)).2 := by
  refine ⟨rfl, ?_, ?_, ?_, ?_⟩
  · rw [aggregate_eq]
    exact sum_map_nonneg insContrib insContrib_nonneg p
  · rw [aggregate_eq]
    exact sum_map_nonneg delContrib delContrib_nonneg p
  · rw [aggregate_eq, aggregate_eq]
    simp only [List.map_append, List.sum_append]
    exact le_add_of_nonneg_right (sum_map_nonneg insContrib insContrib_nonneg q)
  · rw [aggregate_eq, aggregate_eq]
    simp only [List.map_append, List.sum_append]
    exact le_add_of_nonneg_right (sum_map_nonneg delContrib delContrib_nonneg q)

/-- Claim C6: a line that contains the marker substring but on which the
precise numeric pattern finds no match contributes nothing to the
corresponding total (and, the step function being total, no error is
raised). -/
theorem c6_no_false_positives (line : List Char) (t : Int × Int) :
    (containsSub insWord line = true →
      searchStat insWord plusSuffix line = none →
      (stepLine t line).1 = t.1) ∧
    (containsSub delWord line = true →
      searchStat delWord minusSuffix line = none →
      (stepLine t line).2 = t.2) := by
  constructor
  · intro _ hs
    have hext : extractInsertions line = none := by
      unfold extractInsertions
      split
      · exact hs
      · rfl
    rcases hD : extractDeletions line with _ | m <;>
      simp [stepLine, hext, hD]
  · intro _ hs
    have hext : extractDeletions line = none := by
      unfold extractDeletions
      split
      · exact hs
      · rfl
    rcases hI : extractInsertions line with _ | n <;>
      simp [stepLine, hext, hI]

/-- Witness for the C6 theorem at a concrete line that contains both marker
substrings yet matches neither pattern: both counters are left unchanged. -/
theorem c6_witness :
    (stepLine (3, 4) malformedLine).1 = 3 ∧ (stepLine (3, 4) malformedLine).2 = 4 :=
  ⟨(c6_no_false_positives malformedLine (3, 4)).1 (by decide) (by decide),
   (c6_no_false_positives malformedLine (3, 4)).2 (by decide) (by decide)⟩

/-- Claim C7: the two extractions are evaluated independently on every line
(the step adds the two per-line contributions separately), and concrete
lines exhibit all four cases: contributing to both totals, only to
insertions, only to deletions, and to neither. -/
theorem c7_kinds_independent :
    (∀ (t : Int × Int) (line : List Char),
      stepLine t line = (t.1 + insContrib line, t.2 + delContrib line)) ∧
    (insContrib scenALine = 5 ∧ delContrib scenALine = 2) ∧
    (insContrib insOnlyLine = 1 ∧ delContrib insOnlyLine = 0) ∧
    (insContrib delOnlyLine = 0 ∧ delContrib delOnlyLine = 10) ∧
    (insContrib headerLine = 0 ∧ delContrib headerLine = 0) :=
  ⟨fun t line => stepLine_eq t line,
   ⟨rfl, rfl⟩, ⟨rfl, rfl⟩, ⟨rfl, rfl⟩, ⟨rfl, rfl⟩⟩

/-- Claim C8: an empty Report, the Report arising from empty captured
output, and a Report holding only a commit-header line all yield totals
`(0, 0)` and net change `0`, with no error. -/
theorem c8_empty_report :
    aggregate [] = (0, 0) ∧
    countChanges (.ok ⟨0, [], []⟩) =
      .ok ["Total insertions: 0", "Total deletions: 0", "Net change: 0"] ∧
    aggregate [headerLine] = (0, 0) ∧
    reportLines (aggregate [headerLine]) =
      ["Total insertions: 0", "Total deletions: 0", "Net change: 0"] :=
  ⟨rfl, rfl, rfl, rfl⟩

/-- Claim C9: the substring pre-checks have no behavioral effect — on every
line the guarded extraction equals the bare pattern search, for both
kinds. -/
theorem c9_precheck_no_effect (line : List Char) :
    extractInsertions line = searchStat insWord plusSuffix line ∧
    extractDeletions line = searchStat delWord minusSuffix line := by
  constructor
  · unfold extractInsertions
    split
    · rfl
    · rename_i h
      have h2 : containsSub insWord line = false := by
        rcases hc : containsSub insWord line
        · rfl
        · exact absurd (by simp [hc]) h
      exact (not_contains_searchStat insWord plusSuffix line h2).symm
  · unfold extractDeletions
    split
    · rfl
    · rename_i h
      have h2 : containsSub delWord line = false := by
        rcases hc : containsSub delWord line
        · rfl
        · exact absurd (by simp [hc]) h
      exact (not_contains_searchStat delWord minusSuffix line h2).symm

/-- Claim C10: only the leftmost occurrence of each pattern counts: on a
line where the insertions pattern occurs twice (`2 ... then 7 ...`) only
`2` is added, likewise `4` for a doubled deletions line, and the step adds
exactly that one count. -/
theorem c10_leftmost_only :
    searchStat insWord plusSuffix doubleInsLine = some 2 ∧
    searchStat delWord minusSuffix doubleDelLine = some 4 ∧
    aggregate [doubleInsLine, doubleDelLine] = (2, 4) ∧
    (∀ t : Int × Int, stepLine t doubleInsLine = (t.1 + 2, t.2)) :=
  ⟨rfl, rfl, rfl, fun t => by
    rw [stepLine_eq]
    show (t.1 + 2, t.2 + 0) = (t.1 + 2, t.2)
    rw [add_zero]⟩

end CountChanges
